import Mathlib

/-!
Shallow embedding of the `data-extractor` repository (Python/Streamlit app)
for checking its natural-language specification.

Python JSON-like values are modelled by the inductive `JVal`; Python `dict`s
are modelled as association lists (`List (String × JVal)`) in insertion
order, with key update (`setKey`) replacing in place — faithful to CPython's
insertion-ordered dictionaries.  Machine details that the source delegates to
third-party collaborators (the LLM provider, `json.loads`, `pdfplumber`'s
page search) are passed in as explicit parameters, so every repository
function remains a total, executable Lean definition.
-/

/-- A Python/JSON value as it flows through the repository: `None`, booleans,
integers, strings, lists and (insertion-ordered) dictionaries. -/
inductive JVal where
  | null
  | b (v : Bool)
  | i (n : Int)
  | s (v : String)
  | arr (items : List JVal)
  | obj (fields : List (String × JVal))

/-- Python `d.get(k)` / `d[k]` lookup on an insertion-ordered dict. -/
def pyGet (fields : List (String × JVal)) (k : String) : Option JVal :=
  (fields.find? (fun p => p.1 = k)).map Prod.snd

/-- Python `k in d`. -/
def hasKey (fields : List (String × JVal)) (k : String) : Bool :=
  (fields.find? (fun p => p.1 = k)).isSome

/-- Python `d[k] = v`: replaces the value in place when the key is present
(keeping its position), appends the pair otherwise. -/
def setKey (fields : List (String × JVal)) (k : String) (v : JVal) : List (String × JVal) :=
  if hasKey fields k then
    fields.map (fun p => if p.1 = k then (k, v) else p)
  else
    fields ++ [(k, v)]

/-- Python truthiness of a `JVal`. -/
def pyTruthy : JVal → Bool
  | .null => false
  | .b v => v
  | .i n => n ≠ 0
  | .s v => v ≠ ""
  | .arr items => !items.isEmpty
  | .obj fields => !fields.isEmpty

/-- Python `str(v)`.  The container renderings are abbreviated (extraction
answers are strings or scalars in this repository; `str` of a container never
feeds a theorem below, only the totality of the translation). -/
def pyStr : JVal → String
  | .null => "None"
  | .b true => "True"
  | .b false => "False"
  | .i n => toString n
  | .s v => v
  | .arr _ => "[...]"
  | .obj _ => "\x7b...\x7d"

/-- Python `str(v or "")` as used on extracted answers. -/
def pyStrOr (v : JVal) : String :=
  if pyTruthy v then pyStr v else ""

/-- Characters Python's `str.strip()` removes (ASCII whitespace; the rare
Unicode whitespace code points are not modelled). -/
def pyIsSpace (c : Char) : Bool :=
  c = ' ' || c = '\t' || c = '\n' || c = '\r' || c = '\x0b' || c = '\x0c'

/-- Python `s.strip()`. -/
def pyStrip (s : String) : String :=
  String.mk ((((s.toList).dropWhile pyIsSpace).reverse.dropWhile pyIsSpace).reverse)

/-- Splitting a character list at every separator character, keeping empty
pieces, as `re.split` does. -/
def splitCharsAux (p : Char → Bool) : List Char → List Char → List String
  | [], acc => [String.mk acc.reverse]
  | c :: cs, acc =>
    if p c then String.mk acc.reverse :: splitCharsAux p cs []
    else splitCharsAux p cs (c :: acc)

/-- Python `re.split(r";|\n", s)`. -/
def pySplitSemiNl (s : String) : List String :=
  splitCharsAux (fun c => c = ';' || c = '\n') s.toList []

example : pyGet [("a", .s "x"), ("b", .null)] "b" = some .null := rfl
example : setKey [("a", .s "x")] "a" (.s "y") = [("a", .s "y")] := rfl
example : setKey [("a", .s "x")] "f" (.s "y") = [("a", .s "x"), ("f", .s "y")] := rfl

/-! ## Flattening (`flatten_data`, `src/modules/pdf_handler.py` lines 151-156) -/

/-- The per-value projection inside `flatten_data`:
`v["answer"] if isinstance(v, dict) and "answer" in v else v`. -/
def flatten1 : JVal → JVal
  | .obj fields =>
    match pyGet fields "answer" with
    | some a => a
    | none => .obj fields
  | v => v

/-- `flatten_data`: projects every value of every record to its bare answer. -/
def flatten_data (rich_data : List (List (String × JVal))) : List (List (String × JVal)) :=
  rich_data.map (fun item => item.map (fun p => (p.1, flatten1 p.2)))

/-! ## Structured extraction (`analyze_document_with_gemini`, lines 122-149)

The provider call is abstracted as an `Option String`: `none` models any
exception raised while configuring, uploading, polling or generating
(all caught by the function's single `except`), `some text` the response
text.  `json.loads` is abstracted as a parse oracle
`jparse : String → Option JVal` (`none` models a `JSONDecodeError`). -/

/-- `_clean_json_payload` (lines 97-102): strip, then peel a leading
code fence (` ``` ` optionally followed by `json`, case-insensitively) and a
trailing one, re-stripping after each removal. -/
def clean_json_payload (raw_text : String) : String :=
  let payload := pyStrip raw_text
  match payload.toList with
  | '\x60' :: '\x60' :: '\x60' :: rest =>
    let rest :=
      match rest with
      | c1 :: c2 :: c3 :: c4 :: rest2 =>
        if (c1 = 'j' || c1 = 'J') && (c2 = 's' || c2 = 'S')
            && (c3 = 'o' || c3 = 'O') && (c4 = 'n' || c4 = 'N')
        then rest2 else rest
      | _ => rest
    let p1 := pyStrip (String.mk rest)
    let p2 :=
      match p1.toList.reverse with
      | '\x60' :: '\x60' :: '\x60' :: r2 => String.mk r2.reverse
      | _ => p1
    pyStrip p2
  | _ => payload

/-- The `err_row` of lines 147-148: every schema column mapped to the string
`"Error"`, then the source filename assigned under `"filename"`. -/
def errRecordFields (schema_cols : List String) (filename : String) : List (String × JVal) :=
  setKey (schema_cols.foldl (fun acc k => setKey acc k (.s "Error")) []) "filename" (.s filename)

/-- The string actually handed to `json.loads` (line 137): the cleaned
payload, or — when it is empty — the mode's default literal. -/
def effectivePayload (expect_list : Bool) (text : String) : String :=
  if clean_json_payload text = "" then (if expect_list then "[]" else "\x7b\x7d")
  else clean_json_payload text

/-- `analyze_document_with_gemini`: parse the (cleaned) response text, wrap a
single object into a one-element list in multi-record mode, tag every record
with the source filename; any provider error, parse failure, or tagging type
error lands in the `except` branch, which returns the error record (wrapped
in a one-element list in multi-record mode). -/
def analyze_document_with_gemini (filename : String) (schema_cols : List String)
    (expect_list : Bool) (providerText : Option String)
    (jparse : String → Option JVal) : JVal :=
  let errOut : JVal :=
    if expect_list then .arr [.obj (errRecordFields schema_cols filename)]
    else .obj (errRecordFields schema_cols filename)
  match providerText with
  | none => errOut
  | some text =>
    match jparse (effectivePayload expect_list text) with
    | none => errOut
    | some data =>
      if expect_list then
        let data2 := match data with | .obj fields => JVal.arr [.obj fields] | d => d
        match data2 with
        | .arr items =>
          if items.all (fun it => match it with | .obj _ => true | _ => false) then
            .arr (items.map (fun it =>
              match it with
              | .obj fields => JVal.obj (setKey fields "filename" (.s filename))
              | it => it))
          else errOut
        | .s "" => .s ""
        | _ => errOut
      else
        match data with
        | .obj fields => .obj (setKey fields "filename" (.s filename))
        | _ => errOut

/-- The per-document portion of the batch loop of `handle_pdf_app`
(lines 273-302) that C2 is about: every uploaded document is analyzed in
sequence; since `analyze_document_with_gemini` is total, a failing document
contributes its error record and the loop continues. -/
def processBatch (schema_cols : List String) (docs : List (String × Option String))
    (jparse : String → Option JVal) : List JVal :=
  docs.map (fun doc => analyze_document_with_gemini doc.1 schema_cols false doc.2 jparse)

example : clean_json_payload " \x60\x60\x60json \x7b\"a\": 1\x7d \x60\x60\x60 " = "\x7b\"a\": 1\x7d" := rfl
example :
    analyze_document_with_gemini "a.pdf" ["X"] false none (fun _ => none) =
      .obj [("X", .s "Error"), ("filename", .s "a.pdf")] := rfl
example :
    analyze_document_with_gemini "a.pdf" ["X"] false (some "\x7b\"X\": \"v\"\x7d")
      (fun t => if t = "\x7b\"X\": \"v\"\x7d" then some (.obj [("X", .s "v")]) else none) =
      .obj [("X", .s "v"), ("filename", .s "a.pdf")] := rfl

/-! ## Multi-record expansion (`expand_nc_rows_from_single`, lines 158-192) -/

/-- `NC_SPLIT_COLUMNS` (line 48): the designated list-like columns. -/
def NC_SPLIT_COLUMNS : List String :=
  ["NC number", "Client name", "Indicator", "Grade", "Status", "Issue Date", "Closed date"]

/-- Segment computation of line 173: for a list-like column, split the raw
answer on `;` or newline, strip each piece, and keep the non-empty ones; for
a free-text column, keep the single stripped string. -/
def splitSegments (isSplitCol : Bool) (raw : String) : List String :=
  if isSplitCol then
    ((pySplitSemiNl raw).map pyStrip).filter (fun seg => seg ≠ "")
  else
    [pyStrip raw]

/-- The raw answer string and rich-metadata wrapper a column contributes
(lines 164-171): a dict carrying an `"answer"` key yields that answer
(stringified, `None`/falsy mapped to `""`) plus itself as metadata; any other
value is stringified with no metadata. -/
def colRaw (single_entry : List (String × JVal)) (column : String) :
    String × Option (List (String × JVal)) :=
  let val_obj := (pyGet single_entry column).getD (.s "")
  match val_obj with
  | .obj fields =>
    match pyGet fields "answer" with
    | some a => (pyStrOr a, some fields)
    | none => (pyStrOr (.obj fields), none)
  | v => (pyStrOr v, none)

/-- The raw segment list of line 173 for a column of the record. -/
def rawSegments (single_entry : List (String × JVal)) (column : String) : List String :=
  splitSegments (NC_SPLIT_COLUMNS.contains column) (colRaw single_entry column).1

/-- A column's processed segment list (lines 173-175): the split segments,
with the empty list replaced by the single blank segment `[""]` (line 174). -/
def colSegments (single_entry : List (String × JVal)) (column : String) : List String :=
  if rawSegments single_entry column = [] then [""] else rawSegments single_entry column

/-- The cell produced for `column` in row `idx` (lines 182-190): segment
`idx`, or the column's last segment when that column has fewer segments;
wrapped back into a copy of the rich metadata when the column had one. -/
def rowCell (single_entry : List (String × JVal)) (column : String) (idx : Nat) : JVal :=
  let values := colSegments single_entry column
  let answer_val := values.getD idx (values.getLastD "")
  match (colRaw single_entry column).2 with
  | some fields => .obj (setKey fields "answer" (.s answer_val))
  | none => .s answer_val

/-- `expand_nc_rows_from_single`: a falsy (empty) record yields no rows;
otherwise one row per index up to `max(max_len, 1)`, each row starting as
`{"filename": filename}` and then assigning every requested column its cell. -/
def expand_nc_rows_from_single (single_entry : List (String × JVal))
    (column_names : List String) (filename : String) : List (List (String × JVal)) :=
  if single_entry.isEmpty then []
  else
    let max_len := (column_names.map (fun c => (colSegments single_entry c).length)).foldl Nat.max 0
    (List.range (Nat.max max_len 1)).map (fun idx =>
      column_names.foldl (fun row c => setKey row c (rowCell single_entry c idx))
        [("filename", .s filename)])

example :
    expand_nc_rows_from_single [("Status", .s "Open; Closed")] ["Status"] "a.pdf" =
      [[("filename", .s "a.pdf"), ("Status", .s "Open")],
       [("filename", .s "a.pdf"), ("Status", .s "Closed")]] := rfl

example :
    expand_nc_rows_from_single
      [("Status", .obj [("answer", .s "Open;Closed"), ("page_number", .i 2)]),
       ("Scope Definition", .s "a; b")] ["Status", "Scope Definition"] "a.pdf" =
      [[("filename", .s "a.pdf"),
        ("Status", .obj [("answer", .s "Open"), ("page_number", .i 2)]),
        ("Scope Definition", .s "a; b")],
       [("filename", .s "a.pdf"),
        ("Status", .obj [("answer", .s "Closed"), ("page_number", .i 2)]),
        ("Scope Definition", .s "a; b")]] := rfl

/-! ## CSV filter loop (`filter_data_with_gemini`, `src/modules/csv_handler.py` lines 34-90)

The loop `for attempt in range(max_retries + 1)` with `max_retries = 2` is
unrolled to its three iterations.  What the model returns and what executing
the returned snippet does are abstracted per attempt: `code attempt` is the
cleaned snippet text and `execOf attempt` the outcome of `exec`-ing it. -/

/-- A pandas DataFrame, reduced to what the claims need: its ordered column
labels and rows. -/
structure Table where
  cols : List String
  rows : List (List JVal)

/-- `pd.DataFrame()`: the empty table returned when every attempt failed. -/
def emptyTable : Table := ⟨[], []⟩

/-- A pandas Series (a single column with a name). -/
structure Series where
  name : String
  values : List JVal

/-- `Series.to_frame()`: the one-column table holding the series. -/
def Series.toFrame (se : Series) : Table :=
  ⟨[se.name], se.values.map (fun v => [v])⟩

/-- Outcome of one generate-and-exec attempt:
* `raises` — `generate_content`/`exec` raised (syntax error, runtime error, …);
* `noVar` — `exec` succeeded but bound no `filtered_df` (the explicit
  `ValueError` of line 82, caught like every other error);
* `df t` — `filtered_df` is a DataFrame;
* `series se` — `filtered_df` is a Series, coerced by `to_frame()`;
* `other conv` — any other value, passed to the `pd.DataFrame` constructor,
  which yields `some` table or raises (`none`, e.g. for a bare scalar). -/
inductive ExecOutcome where
  | raises
  | noVar
  | df (t : Table)
  | series (se : Series)
  | other (conv : Option Table)

/-- One iteration of the loop body: `some (table, code)` when the attempt
returns from the function, `none` when its error is caught and the loop
moves to the next attempt. -/
def filterAttempt (code : Nat → String) (execOf : Nat → ExecOutcome) (attempt : Nat) :
    Option (Table × String) :=
  match execOf attempt with
  | .df t => some (t, code attempt)
  | .series se => some (se.toFrame, code attempt)
  | .other (some t) => some (t, code attempt)
  | .other none => none
  | .raises => none
  | .noVar => none

/-- `filter_data_with_gemini`: at most three attempts; the first successful
one returns its table and snippet; exhaustion returns `(pd.DataFrame(), None)`.
The third component counts the attempts actually made. -/
def filter_data_with_gemini (code : Nat → String) (execOf : Nat → ExecOutcome) :
    Table × Option String × Nat :=
  match filterAttempt code execOf 0 with
  | some (t, c) => (t, some c, 1)
  | none =>
    match filterAttempt code execOf 1 with
    | some (t, c) => (t, some c, 2)
    | none =>
      match filterAttempt code execOf 2 with
      | some (t, c) => (t, some c, 3)
      | none => (emptyTable, none, 3)

/-! ## Intent classification (`analyze_prompt_intent`, lines 8-32) -/

/-- The fallback intent of line 32. -/
def defaultIntent : JVal := .obj [("filter", .b false), ("question", .b true)]

/-- `analyze_prompt_intent`: returns whatever JSON the response parses to;
on a provider error (`none` response) or a parse failure, returns the
fail-toward-answering default. -/
def analyze_prompt_intent (providerText : Option String)
    (jparse : String → Option JVal) : JVal :=
  match providerText with
  | none => defaultIntent
  | some text =>
    let cleaned := pyStrip ((text.replace "\x60\x60\x60json" "").replace "\x60\x60\x60" "")
    match jparse cleaned with
    | none => defaultIntent
    | some result => result

/-! ## Source verification (`show_source_verification`, lines 194-234)

`pdfplumber` is the excluded collaborator here: a page is abstracted to its
`search` function, returning the bounding boxes of the matches of a quote on
that page (case-insensitive search over the page's word layout).  Box
coordinates are modelled as exact integers: the claims are about rectangle
counts and the ±2/+4 padding offsets, which the source's float arithmetic
computes exactly at this scale. -/

/-- A bounding box as returned by the page search. -/
structure Box where
  x0 : Int
  x1 : Int
  top : Int
  bottom : Int
deriving DecidableEq

/-- A highlight annotation passed to the PDF viewer (color and opacity are
constants in the source and carry no information). -/
structure Annot where
  page : Int
  x : Int
  y : Int
  width : Int
  height : Int
deriving DecidableEq

/-- A document page, abstracted to its quote-search function. -/
structure Page where
  search : String → List Box

/-- The annotation computation of lines 224-233: no annotations for an empty
quote; within the `try`, only a page number inside the 1-indexed page range
is searched, and every match contributes a padded highlight rectangle.
Failures inside the `try` are swallowed (`except: pass`), leaving the
annotation list empty. -/
def verificationAnnotations (pages : List Page) (page_num : Int) (quote_text : String) :
    List Annot :=
  if quote_text ≠ "" then
    if 0 ≤ page_num - 1 ∧ page_num - 1 < pages.length then
      let page := pages.getD (page_num - 1).toNat ⟨fun _ => []⟩
      (page.search quote_text).map (fun w =>
        ⟨page_num, w.x0 - 2, w.top - 2, (w.x1 - w.x0) + 4, (w.bottom - w.top) + 4⟩)
    else []
  else []

/-! ## Configuration (`get_configured_api_key`, `src/utils/api.py` lines 5-12,
and `main`, `src/main.py` lines 8-15) -/

/-- `get_configured_api_key`: the secrets value (`none` when the lookup
raises) takes precedence when truthy, otherwise the environment variable
(`none` when unset). -/
def get_configured_api_key (secrets env : Option String) : Option String :=
  let secret_key := secrets
  match secret_key with
  | some s => if s ≠ "" then some s else env
  | none => env

/-- Which workflow a session would route into. -/
inductive AppMode where
  | csv
  | pdf
  | home
deriving DecidableEq

/-- Outcome of `main`'s startup: either the app halts at the credential
check (`st.stop()` before any workflow code runs), or it proceeds into the
selected workflow. -/
inductive AppOutcome where
  | halted
  | ran (mode : AppMode)
deriving DecidableEq

/-- The startup portion of `main`: configure the key, halt on a falsy key,
otherwise run the selected workflow. -/
def main_startup (secrets env : Option String) (mode : AppMode) : AppOutcome :=
  let api_key := get_configured_api_key secrets env
  match api_key with
  | none => .halted
  | some k => if k = "" then .halted else .ran mode

/-! ## CSV export header (lines 315-336)

`pd.DataFrame(list_of_dicts)` takes as columns the union of the records'
keys in order of first appearance; `df.to_csv` writes them as the header
row.  The exported tables are built from `flatten_data` of the accumulated
records. -/

/-- Column labels of `pd.DataFrame` built from a list of records: keys in
order of first appearance. -/
def dfColumns (records : List (List (String × JVal))) : List String :=
  records.foldl
    (fun acc rec => rec.foldl
      (fun acc2 p => if acc2.contains p.1 then acc2 else acc2 ++ [p.1]) acc)
    []

/-- The header row of the exported CSV for a list of rich records. -/
def csvHeader (records : List (List (String × JVal))) : List String :=
  dfColumns (flatten_data records)

example :
    filter_data_with_gemini (fun n => toString n) (fun _ => .raises) =
      (emptyTable, none, 3) := rfl
example :
    analyze_prompt_intent (some "bad") (fun _ => none) = defaultIntent := rfl
example : main_startup (some "") none .csv = .halted := rfl
example :
    csvHeader [[("A", .s "1"), ("filename", .s "f")]] = ["A", "filename"] := rfl

/-! ## Dictionary lemmas -/

theorem find?_mapReplace (k : String) (v : JVal) :
    ∀ (fs : List (String × JVal)), hasKey fs k = true →
      (fs.map (fun p => if p.1 = k then (k, v) else p)).find? (fun p => p.1 = k) = some (k, v) := by
  intro fs
  induction fs with
  | nil => intro h; simp [hasKey] at h
  | cons p ps ih =>
    intro h
    by_cases hp : p.1 = k
    · simp [List.find?, hp]
    · have h2 : hasKey ps k = true := by
        simpa [hasKey, List.find?, hp] using h
      simp [List.find?, hp, ih h2]

theorem find?_mapReplace_other (k k' : String) (v : JVal) (h : k' ≠ k) :
    ∀ fs : List (String × JVal),
      (fs.map (fun p => if p.1 = k then (k, v) else p)).find? (fun p => p.1 = k')
        = fs.find? (fun p => p.1 = k') := by
  intro fs
  induction fs with
  | nil => rfl
  | cons p ps ih =>
    by_cases hp : p.1 = k
    · simp [List.find?, hp, Ne.symm h, ih]
    · by_cases hp2 : p.1 = k'
      · simp [List.find?, hp, hp2, h]
      · simp [List.find?, hp, hp2, ih]

theorem pyGet_setKey_self (fs : List (String × JVal)) (k : String) (v : JVal) :
    pyGet (setKey fs k v) k = some v := by
  unfold setKey
  by_cases h : hasKey fs k = true
  · simp [h, pyGet, find?_mapReplace k v fs h]
  · simp only [Bool.not_eq_true] at h
    have h3 : fs.find? (fun p => (p.1 = k : Bool)) = none := by
      unfold hasKey at h
      exact Option.not_isSome_iff_eq_none.mp (by simp [h])
    simp [h, pyGet, List.find?_append, h3, List.find?]

theorem pyGet_setKey_other (fs : List (String × JVal)) (k k' : String) (v : JVal) (h : k' ≠ k) :
    pyGet (setKey fs k v) k' = pyGet fs k' := by
  unfold setKey
  by_cases hk : hasKey fs k = true
  · simp [hk, pyGet, find?_mapReplace_other k k' v h fs]
  · simp only [Bool.not_eq_true] at hk
    simp only [hk, Bool.false_eq_true, if_false, pyGet, List.find?_append]
    cases hf : fs.find? (fun p => (p.1 = k' : Bool)) with
    | some p => simp [hf]
    | none => simp [hf, List.find?, Ne.symm h]

theorem pyGet_foldl_setKey (F : String → JVal) (c : String) :
    ∀ (cols : List String) (init : List (String × JVal)),
      pyGet (cols.foldl (fun row c2 => setKey row c2 (F c2)) init) c
        = if c ∈ cols then some (F c) else pyGet init c := by
  intro cols
  induction cols with
  | nil => intro init; simp
  | cons c2 cs ih =>
    intro init
    simp only [List.foldl_cons]
    rw [ih]
    by_cases hc : c ∈ cs
    · simp [hc]
    · by_cases he : c = c2
      · subst he; simp [hc, pyGet_setKey_self]
      · simp [hc, he, pyGet_setKey_other _ _ _ _ he]

/-! ## `Nat.max` fold lemmas -/

theorem nat_max_eq_max (a b : Nat) : Nat.max a b = max a b := rfl

theorem nmax_zero_left (n : Nat) : Nat.max 0 n = n := Nat.max_eq_right (Nat.zero_le n)

theorem nmax_zero_right (n : Nat) : Nat.max n 0 = n := Nat.max_eq_left (Nat.zero_le n)

theorem foldl_max_acc {α : Type} (g : α → Nat) :
    ∀ (l : List α) (a : Nat),
      l.foldl (fun x c => Nat.max x (g c)) a
        = Nat.max a (l.foldl (fun x c => Nat.max x (g c)) 0) := by
  intro l
  induction l with
  | nil => intro a; simp [nmax_zero_right]
  | cons c cs ih =>
    intro a
    simp only [List.foldl_cons]
    rw [ih (Nat.max a (g c)), ih (Nat.max 0 (g c)), nmax_zero_left]
    exact Nat.max_assoc _ _ _

theorem foldl_max_one {α : Type} (g : α → Nat) :
    ∀ (l : List α), l ≠ [] →
      l.foldl (fun x c => Nat.max x (Nat.max 1 (g c))) 0
        = Nat.max 1 (l.foldl (fun x c => Nat.max x (g c)) 0) := by
  intro l
  induction l with
  | nil => intro h; exact absurd rfl h
  | cons c cs ih =>
    intro _
    simp only [List.foldl_cons]
    by_cases hcs : cs = []
    · subst hcs; simp [nmax_zero_left, nmax_zero_right]
    · rw [foldl_max_acc _ cs, foldl_max_acc g cs, ih hcs, nmax_zero_left, nmax_zero_left]
      rw [nat_max_eq_max, nat_max_eq_max, nat_max_eq_max, nat_max_eq_max, nat_max_eq_max]
      rw [max_max_max_comm, max_self]

theorem foldl_max_le {α : Type} (g : α → Nat) (b : Nat) :
    ∀ (l : List α) (a : Nat), a ≤ b → (∀ x ∈ l, g x ≤ b) →
      l.foldl (fun x c => Nat.max x (g c)) a ≤ b := by
  intro l
  induction l with
  | nil => intro a ha _; simpa using ha
  | cons c cs ih =>
    intro a ha hall
    simp only [List.foldl_cons]
    refine ih (Nat.max a (g c)) (Nat.max_le.mpr ⟨ha, ?_⟩) ?_
    · exact hall c (List.mem_cons_self c cs)
    · intro x hx; exact hall x (List.mem_cons_of_mem c hx)

/-! ## Expansion lemmas -/

/-- The maximum raw segment count across the requested columns. -/
def maxRawSegCount (single_entry : List (String × JVal)) (column_names : List String) : Nat :=
  (column_names.map (fun c => (rawSegments single_entry c).length)).foldl Nat.max 0

/-- The flat (provenance-free) value a row holds for a column. -/
def rowAnswer (row : List (String × JVal)) (c : String) : JVal :=
  flatten1 ((pyGet row c).getD .null)

theorem colSegments_ne_nil (e : List (String × JVal)) (c : String) :
    colSegments e c ≠ [] := by
  unfold colSegments
  by_cases h : rawSegments e c = []
  · rw [if_pos h]; intro h2; cases h2
  · rw [if_neg h]; exact h

theorem colSegments_length (e : List (String × JVal)) (c : String) :
    (colSegments e c).length = Nat.max 1 (rawSegments e c).length := by
  unfold colSegments
  by_cases h : rawSegments e c = []
  · rw [if_pos h, h]; rfl
  · have h1 : 1 ≤ (rawSegments e c).length := List.length_pos.mpr h
    rw [if_neg h]
    exact (Nat.max_eq_right h1).symm

theorem expand_length (e : List (String × JVal)) (cols : List String) (f : String)
    (hne : e ≠ []) :
    (expand_nc_rows_from_single e cols f).length
      = Nat.max ((cols.map (fun c => (colSegments e c).length)).foldl Nat.max 0) 1 := by
  match e, hne with
  | p :: ps, _ => simp [expand_nc_rows_from_single, List.isEmpty]

theorem expand_row_get (e : List (String × JVal)) (cols : List String) (f : String)
    (hne : e ≠ []) (i : Nat) (hi : i < (expand_nc_rows_from_single e cols f).length)
    (c : String) (hc : c ∈ cols) :
    pyGet ((expand_nc_rows_from_single e cols f).getD i []) c = some (rowCell e c i) := by
  match e, hne with
  | p :: ps, _ =>
    simp only [expand_nc_rows_from_single, List.isEmpty, Bool.false_eq_true, if_false] at hi ⊢
    rw [List.getD_eq_getElem?_getD, List.getElem?_map]
    rw [List.length_map, List.length_range] at hi
    rw [List.getElem?_range hi]
    simp only [Option.map_some', Option.getD_some]
    rw [pyGet_foldl_setKey (fun c2 => rowCell (p :: ps) c2 i) c cols]
    simp [hc]

theorem flatten1_rowCell (e : List (String × JVal)) (c : String) (i : Nat) :
    flatten1 (rowCell e c i)
      = .s ((colSegments e c).getD i ((colSegments e c).getLastD "")) := by
  unfold rowCell
  cases h : (colRaw e c).2 with
  | none => rfl
  | some fields => simp [flatten1, pyGet_setKey_self]

theorem expand_length_raw (e : List (String × JVal)) (cols : List String) (f : String)
    (hne : e ≠ []) (hcols : cols ≠ []) :
    (expand_nc_rows_from_single e cols f).length = Nat.max 1 (maxRawSegCount e cols) := by
  rw [expand_length e cols f hne]
  unfold maxRawSegCount
  rw [List.foldl_map, List.foldl_map]
  have hcong : cols.foldl (fun x c => Nat.max x ((colSegments e c).length)) 0
      = cols.foldl (fun x c => Nat.max x (Nat.max 1 (rawSegments e c).length)) 0 := by
    apply List.foldl_ext
    intro x c _
    rw [colSegments_length]
  rw [hcong, foldl_max_one _ cols hcols]
  exact Nat.max_eq_left (Nat.le_max_left 1 _)

/-- C1: for a non-empty record and non-empty column list, multi-record
expansion yields exactly `max(1, maximum raw segment count)` rows, and the
flat value row `i` holds for each requested column is that column's segment
`i`, falling back to the column's last segment when the column has fewer
segments than the row count (repeat-last policy).  The segment lists
themselves are produced by `splitSegments`: split on `;`/newline, strip,
drop empties for the designated list-like columns, one stripped segment for
free-text columns. -/
theorem C1_expand_segments_and_rows (e : List (String × JVal)) (cols : List String)
    (f : String) (hne : e ≠ []) (hcols : cols ≠ []) :
    (expand_nc_rows_from_single e cols f).length = Nat.max 1 (maxRawSegCount e cols)
    ∧ ∀ i, i < (expand_nc_rows_from_single e cols f).length → ∀ c ∈ cols,
        rowAnswer ((expand_nc_rows_from_single e cols f).getD i []) c
          = .s ((colSegments e c).getD i ((colSegments e c).getLastD "")) := by
  refine ⟨expand_length_raw e cols f hne hcols, ?_⟩
  intro i hi c hc
  unfold rowAnswer
  rw [expand_row_get e cols f hne i hi c hc]
  simp only [Option.getD_some]
  exact flatten1_rowCell e c i

/-- Witness for C1 at a record where `Status` has three segments and the
free-text `Scope Definition` one: three rows, and row 2 repeats the short
column's last segment (repeat-last). -/
theorem C1_expand_segments_and_rows_witness :
    (expand_nc_rows_from_single
        [("Status", JVal.s "Open; Closed;Open"), ("Scope Definition", JVal.s "one issue")]
        ["Status", "Scope Definition"] "a.pdf").length = 3
    ∧ rowAnswer ((expand_nc_rows_from_single
        [("Status", JVal.s "Open; Closed;Open"), ("Scope Definition", JVal.s "one issue")]
        ["Status", "Scope Definition"] "a.pdf").getD 2 []) "Scope Definition"
      = .s "one issue"
    ∧ rowAnswer ((expand_nc_rows_from_single
        [("Status", JVal.s "Open; Closed;Open"), ("Scope Definition", JVal.s "one issue")]
        ["Status", "Scope Definition"] "a.pdf").getD 2 []) "Status"
      = .s "Open" :=
  ⟨(C1_expand_segments_and_rows _ _ "a.pdf" (by simp) (by simp)).1.trans rfl,
   ((C1_expand_segments_and_rows _ _ "a.pdf" (by simp) (by simp)).2 2 (by decide)
      "Scope Definition" (by simp)).trans rfl,
   ((C1_expand_segments_and_rows _ _ "a.pdf" (by simp) (by simp)).2 2 (by decide)
      "Status" (by simp)).trans rfl⟩

/-- C10: an empty (falsy) record expands to zero rows, while any non-empty
record — even with every answer blank — expands to at least one row. -/
theorem C10_expand_empty_vs_nonempty (e : List (String × JVal)) (cols : List String)
    (f : String) :
    (e = [] → expand_nc_rows_from_single e cols f = [])
    ∧ (e ≠ [] → 1 ≤ (expand_nc_rows_from_single e cols f).length) := by
  constructor
  · intro h; subst h; rfl
  · intro h
    rw [expand_length e cols f h]
    exact Nat.le_max_right _ 1

/-- Witness for C10: the empty record gives zero rows; a record whose only
answer is the empty string still gives a row. -/
theorem C10_expand_empty_vs_nonempty_witness :
    expand_nc_rows_from_single [] ["NC number"] "a.pdf" = []
    ∧ 1 ≤ (expand_nc_rows_from_single [("NC number", JVal.s "")] ["NC number"] "a.pdf").length :=
  ⟨(C10_expand_empty_vs_nonempty [] ["NC number"] "a.pdf").1 rfl,
   (C10_expand_empty_vs_nonempty [("NC number", JVal.s "")] ["NC number"] "a.pdf").2 (by simp)⟩

/-- Counterexample to C4 as stated: for the free-text column
`Scope Definition` with answer `" x "`, expansion yields one row whose value
is the stripped string `"x"`, while the flattened input keeps the bare
answer `" x "` — the row does not equal the flattened input. -/
theorem C4_counterexample :
    expand_nc_rows_from_single [("Scope Definition", JVal.s " x ")] ["Scope Definition"] "a.pdf"
      = [[("filename", JVal.s "a.pdf"), ("Scope Definition", JVal.s "x")]]
    ∧ flatten_data [[("Scope Definition", JVal.s " x ")]]
      = [[("Scope Definition", JVal.s " x ")]]
    ∧ JVal.s "x" ≠ JVal.s " x " := by
  refine ⟨rfl, rfl, ?_⟩
  intro h
  injection h with h2
  exact absurd h2 (by decide)

/-- C4 as amended: for a *non-empty* record in which every column yields at
most one raw segment, expansion yields exactly one row whose flat value for
each requested column is that column's single processed segment (the
stripped answer for a free-text column; the lone stripped delimiter-split
segment — or `""` when there is none — for a list-like column). -/
theorem C4_single_segment_amended (e : List (String × JVal)) (cols : List String)
    (f : String) (hne : e ≠ [])
    (hseg : ∀ c ∈ cols, (rawSegments e c).length ≤ 1) :
    (expand_nc_rows_from_single e cols f).length = 1
    ∧ ∀ c ∈ cols,
        rowAnswer ((expand_nc_rows_from_single e cols f).getD 0 []) c
          = .s ((colSegments e c).headD "") := by
  have hlen : (expand_nc_rows_from_single e cols f).length = 1 := by
    rw [expand_length e cols f hne]
    have hle : (cols.map (fun c => (colSegments e c).length)).foldl Nat.max 0 ≤ 1 := by
      rw [List.foldl_map]
      refine foldl_max_le _ 1 cols 0 (Nat.zero_le 1) ?_
      intro c hc
      rw [colSegments_length]
      exact Nat.max_le.mpr ⟨Nat.le_refl 1, hseg c hc⟩
    exact Nat.max_eq_right hle
  refine ⟨hlen, ?_⟩
  intro c hc
  unfold rowAnswer
  rw [expand_row_get e cols f hne 0 (by rw [hlen]; exact Nat.one_pos) c hc]
  simp only [Option.getD_some]
  rw [flatten1_rowCell]
  cases hcs : colSegments e c with
  | nil => exact absurd hcs (colSegments_ne_nil e c)
  | cons a as => rfl

/-- Witness for the amended C4 at a one-segment record. -/
theorem C4_single_segment_amended_witness :
    (expand_nc_rows_from_single [("Status", JVal.s " Open ")] ["Status"] "a.pdf").length = 1
    ∧ rowAnswer ((expand_nc_rows_from_single [("Status", JVal.s " Open ")] ["Status"]
          "a.pdf").getD 0 []) "Status"
        = .s "Open" :=
  ⟨(C4_single_segment_amended _ _ "a.pdf" (by simp) (by decide)).1,
   ((C4_single_segment_amended _ _ "a.pdf" (by simp) (by decide)).2 "Status"
      (by simp)).trans rfl⟩

/-! ## Flatten idempotence (C5) -/

/-- Is `v` a dict carrying an `"answer"` key (a rich-answer wrapper)? -/
def isAnswerObj : JVal → Bool
  | .obj fields => hasKey fields "answer"
  | _ => false

/-- `v` does not nest a rich-answer wrapper inside a rich-answer wrapper. -/
def noNestedAnswer : JVal → Bool
  | .obj fields =>
    match pyGet fields "answer" with
    | some a => !isAnswerObj a
    | none => true
  | _ => true

/-- A bare flat value (a plain string), as in an already-flat record. -/
def isFlatVal : JVal → Bool
  | .s _ => true
  | _ => false

theorem pyGet_eq_none_of_hasKey_false (fs : List (String × JVal)) (k : String)
    (h : hasKey fs k = false) : pyGet fs k = none := by
  unfold hasKey at h
  have h2 : fs.find? (fun p => (p.1 = k : Bool)) = none :=
    Option.not_isSome_iff_eq_none.mp (by simp [h])
  unfold pyGet
  rw [h2]
  rfl

theorem flatten1_flatten1 (v : JVal) (h : noNestedAnswer v = true) :
    flatten1 (flatten1 v) = flatten1 v := by
  cases v with
  | obj fields =>
    cases hga : pyGet fields "answer" with
    | none => simp [flatten1, hga]
    | some a =>
      have ha : isAnswerObj a = false := by
        simp only [noNestedAnswer, hga] at h
        simpa using h
      simp only [flatten1, hga]
      cases a with
      | obj gs =>
        unfold isAnswerObj at ha
        simp [flatten1, pyGet_eq_none_of_hasKey_false gs "answer" ha]
      | null => rfl
      | b _ => rfl
      | i _ => rfl
      | s _ => rfl
      | arr _ => rfl
  | null => rfl
  | b _ => rfl
  | i _ => rfl
  | s _ => rfl
  | arr _ => rfl

/-- Counterexample to C5 as stated: a record value whose `"answer"` is
itself an `"answer"`-carrying dict is unwrapped one more level by a second
flattening pass, so flattening twice differs from flattening once on this
list of records. -/
theorem C5_counterexample :
    flatten_data (flatten_data
        [[("A", JVal.obj [("answer", JVal.obj [("answer", JVal.s "x")])])]])
      ≠ flatten_data [[("A", JVal.obj [("answer", JVal.obj [("answer", JVal.s "x")])])]] := by
  intro h
  have h2 : ([[("A", JVal.s "x")]] : List (List (String × JVal)))
      = [[("A", JVal.obj [("answer", JVal.s "x")])]] := h
  injection h2 with h3 _
  injection h3 with h4 _
  injection h4 with _ h5
  cases h5

/-- C5 as amended: flattening is idempotent on every list of records none of
whose values nests a rich answer inside a rich answer (so in particular on
genuine rich records, whose answers are strings), and it returns already-flat
records — all values plain strings — unchanged. -/
theorem C5_flatten_idempotent_amended (rich_data : List (List (String × JVal))) :
    ((∀ rec ∈ rich_data, ∀ p ∈ rec, noNestedAnswer (Prod.snd p) = true) →
      flatten_data (flatten_data rich_data) = flatten_data rich_data)
    ∧ ((∀ rec ∈ rich_data, ∀ p ∈ rec, isFlatVal (Prod.snd p) = true) →
      flatten_data rich_data = rich_data) := by
  constructor
  · intro h
    unfold flatten_data
    rw [List.map_map]
    apply List.map_congr_left
    intro rec hrec
    simp only [Function.comp_apply]
    rw [List.map_map]
    apply List.map_congr_left
    intro p hp
    simp only [Function.comp_apply]
    rw [flatten1_flatten1 p.2 (h rec hrec p hp)]
  · intro h
    unfold flatten_data
    have : ∀ rec ∈ rich_data, rec.map (fun p => (p.1, flatten1 p.2)) = rec := by
      intro rec hrec
      have : ∀ p ∈ rec, (fun p => (p.1, flatten1 p.2)) p = id p := by
        intro p hp
        have hf := h rec hrec p hp
        cases p with
        | mk k v =>
          cases v with
          | s t => rfl
          | null => simp [isFlatVal] at hf
          | b _ => simp [isFlatVal] at hf
          | i _ => simp [isFlatVal] at hf
          | arr _ => simp [isFlatVal] at hf
          | obj _ => simp [isFlatVal] at hf
      rw [List.map_congr_left this, List.map_id]
    calc rich_data.map (fun rec => rec.map (fun p => (p.1, flatten1 p.2)))
        = rich_data.map id := List.map_congr_left (fun rec hrec => this rec hrec)
      _ = rich_data := List.map_id rich_data

/-- Witness for the amended C5: a rich record flattens idempotently, a flat
record is returned unchanged. -/
theorem C5_flatten_idempotent_amended_witness :
    flatten_data (flatten_data
        [[("A", JVal.obj [("answer", JVal.s "x"), ("page_number", JVal.i 2)]),
          ("filename", JVal.s "f.pdf")]])
      = flatten_data
        [[("A", JVal.obj [("answer", JVal.s "x"), ("page_number", JVal.i 2)]),
          ("filename", JVal.s "f.pdf")]]
    ∧ flatten_data [[("A", JVal.s "x"), ("filename", JVal.s "f.pdf")]]
      = [[("A", JVal.s "x"), ("filename", JVal.s "f.pdf")]] :=
  ⟨(C5_flatten_idempotent_amended _).1 (by decide),
   (C5_flatten_idempotent_amended _).2 (by decide)⟩

/-! ## Extraction error path (C2) -/

/-- Counterexample to C2 as stated: when the user schema contains a column
literally named `filename`, the error record's value for that requested
column is the source filename (line 148 overwrites the `"Error"` marker of
line 147 in place), not the literal string `"Error"`. -/
theorem C2_counterexample :
    analyze_document_with_gemini "doc.pdf" ["filename"] false none (fun _ => none)
      = .obj [("filename", JVal.s "doc.pdf")]
    ∧ JVal.s "doc.pdf" ≠ JVal.s "Error" := by
  refine ⟨rfl, ?_⟩
  intro h
  injection h with h2
  exact absurd h2 (by decide)

/-- C2 as amended: on a provider error or a JSON parse failure, extraction
returns (without raising — it is a total function) exactly the error record
— a one-element list of it in multi-record mode — in which every requested
schema column *other than one literally named `filename`* is the string
`"Error"` and the `filename` key is the source filename; and the batch loop
(a map over the documents) yields one result per document, so it continues
past failing documents. -/
theorem C2_error_record_amended (filename : String) (schema_cols : List String)
    (expect_list : Bool) (providerText : Option String) (jparse : String → Option JVal)
    (docs : List (String × Option String))
    (hfail : providerText = none
      ∨ ∃ text, providerText = some text
          ∧ jparse (effectivePayload expect_list text) = none) :
    analyze_document_with_gemini filename schema_cols expect_list providerText jparse
      = (if expect_list then JVal.arr [.obj (errRecordFields schema_cols filename)]
         else .obj (errRecordFields schema_cols filename))
    ∧ (∀ c ∈ schema_cols, c ≠ "filename" →
        pyGet (errRecordFields schema_cols filename) c = some (.s "Error"))
    ∧ pyGet (errRecordFields schema_cols filename) "filename" = some (.s filename)
    ∧ (processBatch schema_cols docs jparse).length = docs.length := by
  refine ⟨?_, ?_, ?_, ?_⟩
  · rcases hfail with h | ⟨text, htext, hparse⟩
    · subst h; rfl
    · subst htext
      simp only [analyze_document_with_gemini, hparse]
  · intro c hc hcf
    unfold errRecordFields
    rw [pyGet_setKey_other _ _ _ _ hcf]
    rw [pyGet_foldl_setKey (fun _ => JVal.s "Error") c schema_cols []]
    simp [hc]
  · exact pyGet_setKey_self _ _ _
  · unfold processBatch
    exact List.length_map docs _

/-- Witness for the amended C2: a provider failure on one document yields the
error record and a two-document batch still yields two results. -/
theorem C2_error_record_amended_witness :
    analyze_document_with_gemini "a.pdf" ["NC number", "Grade"] false none (fun _ => none)
      = .obj [("NC number", JVal.s "Error"), ("Grade", JVal.s "Error"),
              ("filename", JVal.s "a.pdf")]
    ∧ pyGet (errRecordFields ["NC number", "Grade"] "a.pdf") "Grade" = some (.s "Error")
    ∧ pyGet (errRecordFields ["NC number", "Grade"] "a.pdf") "filename"
        = some (.s "a.pdf")
    ∧ (processBatch ["NC number", "Grade"]
        [("a.pdf", none), ("b.pdf", some "not json")] (fun _ => none)).length = 2 :=
  ⟨(C2_error_record_amended "a.pdf" ["NC number", "Grade"] false none (fun _ => none)
      [] (Or.inl rfl)).1.trans rfl,
   (C2_error_record_amended "a.pdf" ["NC number", "Grade"] false none (fun _ => none)
      [] (Or.inl rfl)).2.1 "Grade" (by simp) (by decide),
   (C2_error_record_amended "a.pdf" ["NC number", "Grade"] false none (fun _ => none)
      [] (Or.inl rfl)).2.2.1,
   ((C2_error_record_amended "a.pdf" ["NC number", "Grade"] false none (fun _ => none)
      [("a.pdf", none), ("b.pdf", some "not json")] (Or.inl rfl)).2.2.2).trans rfl⟩

/-! ## CSV filter loop bounds (C3) -/

/-- C3: the CSV filter loop makes at most three attempts (and, being a total
function, never propagates an error to its caller); when all three attempts
fail it returns the empty table with no code; a Series result is coerced via
`to_frame()` into a one-column table, and a first-attempt Series success
returns that one-column table. -/
theorem C3_filter_loop_bounds (code : Nat → String) (execOf : Nat → ExecOutcome) :
    (filter_data_with_gemini code execOf).2.2 ≤ 3
    ∧ (filterAttempt code execOf 0 = none → filterAttempt code execOf 1 = none →
        filterAttempt code execOf 2 = none →
        filter_data_with_gemini code execOf = (emptyTable, none, 3))
    ∧ (∀ i se, execOf i = .series se →
        filterAttempt code execOf i = some (se.toFrame, code i)
        ∧ se.toFrame.cols.length = 1)
    ∧ (∀ se, execOf 0 = .series se →
        filter_data_with_gemini code execOf = (se.toFrame, some (code 0), 1)) := by
  refine ⟨?_, ?_, ?_, ?_⟩
  · unfold filter_data_with_gemini
    rcases h0 : filterAttempt code execOf 0 with _ | ⟨t0, c0⟩
    · rcases h1 : filterAttempt code execOf 1 with _ | ⟨t1, c1⟩
      · rcases h2 : filterAttempt code execOf 2 with _ | ⟨t2, c2⟩
        · simp
        · simp
      · simp
    · simp
  · intro h0 h1 h2
    unfold filter_data_with_gemini
    rw [h0, h1, h2]
  · intro i se h
    refine ⟨?_, rfl⟩
    unfold filterAttempt
    rw [h]
  · intro se h
    unfold filter_data_with_gemini filterAttempt
    rw [h]

/-- Witness for C3: a loop whose every attempt raises returns the empty
table, no code and three attempts; a first-attempt Series is coerced to a
one-column table. -/
theorem C3_filter_loop_bounds_witness :
    (filter_data_with_gemini (fun n => toString n) (fun _ => ExecOutcome.raises)).2.2 ≤ 3
    ∧ filter_data_with_gemini (fun n => toString n) (fun _ => ExecOutcome.raises)
        = (emptyTable, none, 3)
    ∧ (filterAttempt (fun n => toString n)
          (fun _ => ExecOutcome.series ⟨"Status", [JVal.s "Open"]⟩) 0
        = some ((⟨"Status", [JVal.s "Open"]⟩ : Series).toFrame, toString 0)
      ∧ (⟨"Status", [JVal.s "Open"]⟩ : Series).toFrame.cols.length = 1)
    ∧ filter_data_with_gemini (fun n => toString n)
        (fun _ => ExecOutcome.series ⟨"Status", [JVal.s "Open"]⟩)
        = ((⟨"Status", [JVal.s "Open"]⟩ : Series).toFrame, some (toString 0), 1) :=
  ⟨(C3_filter_loop_bounds (fun n => toString n) (fun _ => ExecOutcome.raises)).1,
   (C3_filter_loop_bounds (fun n => toString n) (fun _ => ExecOutcome.raises)).2.1 rfl rfl rfl,
   (C3_filter_loop_bounds (fun n => toString n)
      (fun _ => ExecOutcome.series ⟨"Status", [JVal.s "Open"]⟩)).2.2.1 0 _ rfl,
   (C3_filter_loop_bounds (fun n => toString n)
      (fun _ => ExecOutcome.series ⟨"Status", [JVal.s "Open"]⟩)).2.2.2 _ rfl⟩

/-! ## Intent classification default (C7) -/

/-- C7: on a provider error or any parse failure of the classification
response, `analyze_prompt_intent` returns exactly
`\x7b"filter": false, "question": true\x7d` (and, being total, does not raise). -/
theorem C7_intent_fail_default (providerText : Option String)
    (jparse : String → Option JVal)
    (hfail : providerText = none
      ∨ ∃ text, providerText = some text
          ∧ jparse (pyStrip ((text.replace "\x60\x60\x60json" "").replace "\x60\x60\x60" ""))
              = none) :
    analyze_prompt_intent providerText jparse
      = .obj [("filter", .b false), ("question", .b true)] := by
  rcases hfail with h | ⟨text, htext, hparse⟩
  · subst h; rfl
  · subst htext
    simp only [analyze_prompt_intent, hparse]
    rfl

/-- Witness for C7 at a concrete unparseable response. -/
theorem C7_intent_fail_default_witness :
    analyze_prompt_intent (some "I cannot answer that") (fun _ => none)
      = .obj [("filter", .b false), ("question", .b true)] :=
  C7_intent_fail_default (some "I cannot answer that") (fun _ => none)
    (Or.inr ⟨"I cannot answer that", rfl, rfl⟩)

/-! ## Source verification highlights (C6) -/

/-- C6: an empty quote, an out-of-range cited page, or a quote with no
occurrences on the cited page yields zero highlight rectangles (the page is
still rendered; the computation is total); an in-range page and a non-empty
quote yield exactly one rectangle per occurrence, each anchored to the
match's bounding box with a 2-point padding margin — in particular at least
one rectangle when the quote occurs on the page. -/
theorem C6_verification_highlights (pages : List Page) (page_num : Int) (quote : String) :
    (¬ (0 ≤ page_num - 1 ∧ page_num - 1 < (pages.length : Int)) →
        verificationAnnotations pages page_num quote = [])
    ∧ ((pages.getD (page_num - 1).toNat ⟨fun _ => []⟩).search quote = [] →
        verificationAnnotations pages page_num quote = [])
    ∧ ((0 ≤ page_num - 1 ∧ page_num - 1 < (pages.length : Int)) → quote ≠ "" →
        verificationAnnotations pages page_num quote
          = ((pages.getD (page_num - 1).toNat ⟨fun _ => []⟩).search quote).map (fun w =>
              ⟨page_num, w.x0 - 2, w.top - 2, (w.x1 - w.x0) + 4, (w.bottom - w.top) + 4⟩)
        ∧ ((pages.getD (page_num - 1).toNat ⟨fun _ => []⟩).search quote ≠ [] →
            verificationAnnotations pages page_num quote ≠ [])) := by
  refine ⟨?_, ?_, ?_⟩
  · intro h
    unfold verificationAnnotations
    by_cases hq : quote ≠ ""
    · rw [if_pos hq, if_neg h]
    · rw [if_neg hq]
  · intro hsearch
    unfold verificationAnnotations
    by_cases hq : quote ≠ ""
    · by_cases hr : 0 ≤ page_num - 1 ∧ page_num - 1 < (pages.length : Int)
      · rw [if_pos hq, if_pos hr]
        simp only [hsearch, List.map_nil]
      · rw [if_pos hq, if_neg hr]
    · rw [if_neg hq]
  · intro hr hq
    have heq : verificationAnnotations pages page_num quote
        = ((pages.getD (page_num - 1).toNat ⟨fun _ => []⟩).search quote).map (fun w =>
            ⟨page_num, w.x0 - 2, w.top - 2, (w.x1 - w.x0) + 4, (w.bottom - w.top) + 4⟩) := by
      unfold verificationAnnotations
      rw [if_pos hq, if_pos hr]
    refine ⟨heq, ?_⟩
    intro hs hmap
    rw [heq] at hmap
    exact hs (List.map_eq_nil_iff.mp hmap)

/-- Witness for C6: a one-page document where the quote `"Status: Open"`
occurs once yields exactly the padded rectangle; a missing quote yields no
rectangle. -/
theorem C6_verification_highlights_witness :
    verificationAnnotations
        [⟨fun q => if q = "Status: Open" then [⟨10, 60, 100, 112⟩] else []⟩] 5 "Status: Open"
        = []
    ∧ verificationAnnotations
        [⟨fun q => if q = "Status: Open" then [⟨10, 60, 100, 112⟩] else []⟩] 1 "no such text"
        = []
    ∧ verificationAnnotations
        [⟨fun q => if q = "Status: Open" then [⟨10, 60, 100, 112⟩] else []⟩] 1 "Status: Open"
        = [⟨1, 8, 98, 54, 16⟩] :=
  ⟨(C6_verification_highlights
      [⟨fun q => if q = "Status: Open" then [⟨10, 60, 100, 112⟩] else []⟩] 5 "Status: Open").1
      (by decide),
   (C6_verification_highlights
      [⟨fun q => if q = "Status: Open" then [⟨10, 60, 100, 112⟩] else []⟩] 1 "no such text").2.1
      (by decide),
   ((C6_verification_highlights
      [⟨fun q => if q = "Status: Open" then [⟨10, 60, 100, 112⟩] else []⟩] 1 "Status: Open").2.2
      (by decide) (by decide)).1.trans (by decide)⟩

/-! ## Credential resolution and startup halt (C8) -/

/-- C8: the secrets value, when present and non-empty, takes precedence; a
missing or empty secrets value falls through to the environment variable;
and a falsy resolved key (absent or empty) halts the application at startup,
before either workflow runs. -/
theorem C8_credential_startup (secrets env : Option String) :
    (∀ sv, secrets = some sv → sv ≠ "" → get_configured_api_key secrets env = some sv)
    ∧ ((secrets = none ∨ secrets = some "") → get_configured_api_key secrets env = env)
    ∧ ((get_configured_api_key secrets env = none
        ∨ get_configured_api_key secrets env = some "") →
        ∀ mode, main_startup secrets env mode = .halted)
    ∧ (∀ mode, AppOutcome.halted ≠ AppOutcome.ran mode) := by
  refine ⟨?_, ?_, ?_, ?_⟩
  · intro sv hs hne
    subst hs
    show (if sv ≠ "" then some sv else env) = some sv
    rw [if_pos hne]
  · intro h
    rcases h with h | h <;> subst h <;> rfl
  · intro h mode
    unfold main_startup
    rcases h with h | h <;> rw [h]
    rfl
  · intro mode h
    cases h

/-- Witness for C8: a non-empty secrets value wins over the environment; with
no secrets and no environment variable the app halts. -/
theorem C8_credential_startup_witness :
    get_configured_api_key (some "sk-1") (some "sk-2") = some "sk-1"
    ∧ get_configured_api_key none none = none
    ∧ main_startup none none .pdf = .halted :=
  ⟨(C8_credential_startup (some "sk-1") (some "sk-2")).1 "sk-1" rfl (by decide),
   (C8_credential_startup none none).2.1 (Or.inl rfl),
   (C8_credential_startup none none).2.2.1 (Or.inl rfl) .pdf⟩

/-! ## CSV export header (C9) -/

/-- Folding a list of keys into a pandas column accumulator: append each key
not yet present. -/
def insertKeys (acc : List String) (keys : List String) : List String :=
  keys.foldl (fun a k => if a.contains k then a else a ++ [k]) acc

theorem dfColumns_eq (records : List (List (String × JVal))) :
    dfColumns records
      = records.foldl (fun acc rec => insertKeys acc (rec.map Prod.fst)) [] := by
  unfold dfColumns insertKeys
  congr 1
  funext acc rec
  rw [List.foldl_map]

theorem insertKeys_of_all_mem (keys : List String) :
    ∀ acc, (∀ k ∈ keys, k ∈ acc) → insertKeys acc keys = acc := by
  induction keys with
  | nil => intro acc _; rfl
  | cons k ks ih =>
    intro acc h
    unfold insertKeys
    simp only [List.foldl_cons]
    have hk : acc.contains k = true := by
      have hm := h k (List.mem_cons_self k ks)
      simpa [List.contains] using hm
    rw [if_pos hk]
    exact ih acc (fun k2 hk2 => h k2 (List.mem_cons_of_mem k hk2))

theorem insertKeys_of_all_not_mem (keys : List String) :
    ∀ acc, (∀ k ∈ keys, k ∉ acc) → keys.Nodup → insertKeys acc keys = acc ++ keys := by
  induction keys with
  | nil => intro acc _ _; simp [insertKeys]
  | cons k ks ih =>
    intro acc h hnd
    unfold insertKeys
    simp only [List.foldl_cons]
    have hk : acc.contains k = false := by
      have hm := h k (List.mem_cons_self k ks)
      simpa [List.contains] using hm
    have hcne : ¬ (acc.contains k = true) := by
      rw [hk]; exact Bool.false_ne_true
    rw [if_neg hcne]
    have hih := ih (acc ++ [k]) ?_ (List.Nodup.of_cons hnd)
    · unfold insertKeys at hih
      rw [hih, List.append_assoc]
      rfl
    · intro k2 hk2
      rw [List.mem_append]
      rintro (h1 | h2)
      · exact h k2 (List.mem_cons_of_mem k hk2) h1
      · have hne : k2 ≠ k := by
          intro he
          exact (List.nodup_cons.mp hnd).1 (he ▸ hk2)
        simp at h2
        exact hne h2

theorem foldl_insertKeys_const (K : List String) :
    ∀ (rest : List (List (String × JVal))), (∀ rec ∈ rest, rec.map Prod.fst = K) →
      rest.foldl (fun acc rec => insertKeys acc (rec.map Prod.fst)) K = K := by
  intro rest
  induction rest with
  | nil => intro _; rfl
  | cons rec rs ih =>
    intro h
    simp only [List.foldl_cons]
    rw [h rec (List.mem_cons_self rec rs)]
    rw [insertKeys_of_all_mem K K (fun k hk => hk)]
    exact ih (fun r hr => h r (List.mem_cons_of_mem rec hr))

theorem dfColumns_uniform (K : List String) (hnd : K.Nodup) :
    ∀ (records : List (List (String × JVal))), records ≠ [] →
      (∀ rec ∈ records, rec.map Prod.fst = K) →
      dfColumns records = K := by
  intro records hne h
  match records, hne with
  | rec :: rest, _ =>
    rw [dfColumns_eq]
    simp only [List.foldl_cons]
    rw [h rec (List.mem_cons_self rec rest)]
    rw [insertKeys_of_all_not_mem K [] (fun k _ hk => (List.not_mem_nil k) hk) hnd]
    rw [List.nil_append]
    exact foldl_insertKeys_const K rest (fun r hr => h r (List.mem_cons_of_mem rec hr))

theorem flatten_rec_keys (rec : List (String × JVal)) :
    (rec.map (fun p => (p.1, flatten1 p.2))).map Prod.fst = rec.map Prod.fst := by
  rw [List.map_map]
  rfl

theorem hasKey_eq_false_of_not_mem (fs : List (String × JVal)) (k : String)
    (h : k ∉ fs.map Prod.fst) : hasKey fs k = false := by
  unfold hasKey
  rw [List.find?_eq_none.mpr ?_]
  · rfl
  · intro p hp
    simp only [decide_eq_true_eq]
    intro hpk
    exact h (hpk ▸ List.mem_map_of_mem Prod.fst hp)

theorem keys_foldl_setKey (F : String → JVal) :
    ∀ (cols : List String) (init : List (String × JVal)),
      (∀ c ∈ cols, c ∉ init.map Prod.fst) → cols.Nodup →
      (cols.foldl (fun row c => setKey row c (F c)) init).map Prod.fst
        = init.map Prod.fst ++ cols := by
  intro cols
  induction cols with
  | nil => intro init _ _; simp
  | cons c cs ih =>
    intro init h hnd
    simp only [List.foldl_cons]
    have hk : hasKey init c = false :=
      hasKey_eq_false_of_not_mem _ _ (h c (List.mem_cons_self c cs))
    have hset : setKey init c (F c) = init ++ [(c, F c)] := by
      unfold setKey
      rw [if_neg (by simp [hk])]
    rw [hset, ih (init ++ [(c, F c)]) ?_ (List.Nodup.of_cons hnd)]
    · simp [List.append_assoc]
    · intro c2 hc2
      rw [List.map_append, List.mem_append]
      rintro (h1 | h2)
      · exact h c2 (List.mem_cons_of_mem c hc2) h1
      · have hne : c2 ≠ c := by
          intro he
          exact (List.nodup_cons.mp hnd).1 (he ▸ hc2)
        simp at h2
        exact hne h2

theorem expand_row_keys (e : List (String × JVal)) (cols : List String) (f : String)
    (hnd : cols.Nodup) (hf : "filename" ∉ cols) :
    ∀ rec ∈ expand_nc_rows_from_single e cols f,
      rec.map Prod.fst = "filename" :: cols := by
  intro rec hrec
  match e with
  | [] => simp [expand_nc_rows_from_single] at hrec
  | p :: ps =>
    simp only [expand_nc_rows_from_single, List.isEmpty, Bool.false_eq_true, if_false] at hrec
    rw [List.mem_map] at hrec
    obtain ⟨idx, _, hrow⟩ := hrec
    rw [← hrow]
    rw [keys_foldl_setKey (fun c => rowCell (p :: ps) c idx) cols [("filename", .s f)] ?_ hnd]
    · rfl
    · intro c hc
      simp only [List.map_cons, List.map_nil, List.mem_singleton]
      intro he
      exact hf (he ▸ hc)

/-- Counterexample to C9 as stated: a section table populated through the
fallback expansion has `filename` as its *first* exported column (the row
dict of line 180 starts with the filename tag before the schema columns),
not its last. -/
theorem C9_counterexample :
    csvHeader (expand_nc_rows_from_single [("NC number", JVal.s "1")] ["NC number"] "a.pdf")
      = ["filename", "NC number"]
    ∧ ["filename", "NC number"] ≠ ["NC number", "filename"] :=
  ⟨rfl, by decide⟩

/-- C9 as amended: a result table whose records all carry the schema's
columns followed by `filename` — the shape of direct single-record
extraction results and of error records — exports with header
`schema columns ++ [filename]`; but a table populated by the fallback
multi-record expansion exports with `filename` as the *first* column,
followed by the schema columns. -/
theorem C9_csv_header_amended (schema_cols : List String)
    (records : List (List (String × JVal)))
    (e : List (String × JVal)) (cols : List String) (f : String) :
    (records ≠ [] → (schema_cols ++ ["filename"]).Nodup →
      (∀ rec ∈ records, rec.map Prod.fst = schema_cols ++ ["filename"]) →
      csvHeader records = schema_cols ++ ["filename"])
    ∧ (e ≠ [] → cols.Nodup → "filename" ∉ cols →
      csvHeader (expand_nc_rows_from_single e cols f) = "filename" :: cols) := by
  constructor
  · intro hne hnd hkeys
    unfold csvHeader
    apply dfColumns_uniform _ hnd
    · intro hmap
      exact hne (List.map_eq_nil_iff.mp hmap)
    · intro rec2 hrec2
      unfold flatten_data at hrec2
      rw [List.mem_map] at hrec2
      obtain ⟨rec, hrec, hrw⟩ := hrec2
      rw [← hrw, flatten_rec_keys]
      exact hkeys rec hrec
  · intro hne hnd hf
    unfold csvHeader
    apply dfColumns_uniform _ (List.nodup_cons.mpr ⟨hf, hnd⟩)
    · intro hmap
      have hnil := List.map_eq_nil_iff.mp hmap
      have hlen := expand_length e cols f hne
      rw [hnil] at hlen
      simp only [List.length_nil] at hlen
      have h1 : (1 : Nat)
          ≤ Nat.max ((cols.map (fun c => (colSegments e c).length)).foldl Nat.max 0) 1 :=
        Nat.le_max_right _ 1
      rw [← hlen] at h1
      exact absurd h1 (by decide)
    · intro rec2 hrec2
      unfold flatten_data at hrec2
      rw [List.mem_map] at hrec2
      obtain ⟨rec, hrec, hrw⟩ := hrec2
      rw [← hrw, flatten_rec_keys]
      exact expand_row_keys e cols f hnd hf rec hrec

/-- Witness for the amended C9: an error-shaped record exports as
`["A", "filename"]`; a fallback-expanded section exports as
`["filename", "NC number"]`. -/
theorem C9_csv_header_amended_witness :
    csvHeader [[("A", JVal.s "Error"), ("filename", JVal.s "f.pdf")]] = ["A", "filename"]
    ∧ csvHeader (expand_nc_rows_from_single [("NC number", JVal.s "1;2")] ["NC number"] "a.pdf")
        = "filename" :: ["NC number"] :=
  ⟨(C9_csv_header_amended ["A"] [[("A", JVal.s "Error"), ("filename", JVal.s "f.pdf")]]
      [] [] "").1 (by simp) (by decide) (by decide),
   (C9_csv_header_amended [] [] [("NC number", JVal.s "1;2")] ["NC number"] "a.pdf").2
      (by simp) (by decide) (by decide)⟩
